import Mathlib

/-!
Verification of the elementpath TDOP engine and XPath 1.0 evaluator.

Shallow embedding translated from `src/elementpath/tdop.py` and
`src/elementpath/xpath1_parser.py`.  Python machine values are modelled as
follows: `int` as `ℤ`, `decimal.Decimal` as `ℚ` (the exact value held by the
decimal, signed zero not modelled), `float` as `XFloat` (NaN, the two
infinities, or an exact rational; IEEE rounding of finite values is not
re-modelled because every claim checked below only exercises values that are
exactly representable).  Fallible Python code (code that can raise) is
embedded as `Except`-valued functions, with the raised error classified by
the same error kinds the source uses.
-/

namespace ElementPath

/-- Model of a Python `float`: NaN, +inf, -inf, or an exact finite value. -/
inductive XFloat where
  | nan : XFloat
  | inf : XFloat
  | ninf : XFloat
  | fin (q : ℚ) : XFloat
deriving DecidableEq, Repr

/-- A numeric XPath value: Python `int`, `decimal.Decimal` or `float`,
as produced by the arithmetic operand coercion. -/
inductive XValue where
  | int (n : ℤ) : XValue
  | dec (q : ℚ) : XValue
  | flt (f : XFloat) : XValue
deriving DecidableEq, Repr

/-- Python `v != 0` for a numeric value (`float('nan') != 0` is `True`). -/
def xNeZero : XValue → Bool
  | .int n => n ≠ 0
  | .dec q => q ≠ 0
  | .flt .nan => true
  | .flt .inf => true
  | .flt .ninf => true
  | .flt (.fin q) => q ≠ 0

/-- Python `v == 0` for a numeric value (`False` for NaN and infinities). -/
def xEqZero : XValue → Bool
  | .int n => n = 0
  | .dec q => q = 0
  | .flt (.fin q) => q = 0
  | .flt _ => false

/-- Python `v > 0` for a numeric value (`False` for NaN, `True` for +inf). -/
def xGtZero : XValue → Bool
  | .int n => 0 < n
  | .dec q => 0 < q
  | .flt (.fin q) => 0 < q
  | .flt .inf => true
  | .flt .ninf => false
  | .flt .nan => false

/-- Python `str(v).startswith('-')` for a numeric value, the sign test the
`div` operator applies to the divisor.  Negative zero of `float`/`Decimal`
is not modelled (no claim exercises it). -/
def strStartsNeg : XValue → Bool
  | .int n => n < 0
  | .dec q => q < 0
  | .flt (.fin q) => q < 0
  | .flt .ninf => true
  | .flt .inf => false
  | .flt .nan => false

/-- Python `isinstance(v, (int, decimal.Decimal))`. -/
def isIntOrDec : XValue → Bool
  | .int _ => true
  | .dec _ => true
  | .flt _ => false

/-- Error kinds raised by the arithmetic evaluators (the XPath error codes
used by `xpath1_parser.py`). -/
inductive AErr where
  | XPTY0004 : AErr
  | FOCA0005 : AErr
  | FOAR0001 : AErr
  | FOAR0002 : AErr
deriving DecidableEq, Repr

/-- Python true division `dividend / divisor` for the mixed-type cases the
`div` operator reaches when the divisor is not numerically zero (the
`int / int` pair is short-circuited by the source before this point, so its
arm here mirrors Python's float-producing `/` but is unreachable from
`divEvaluate`).  `Decimal` mixed with `float` raises `TypeError` in Python;
finite results are modelled exactly as rationals. -/
def pyDiv : XValue → XValue → Except AErr XValue
  | .dec x, .dec y => .ok (.dec (x / y))
  | .dec x, .int n => .ok (.dec (x / (n : ℚ)))
  | .int n, .dec y => .ok (.dec ((n : ℚ) / y))
  | .dec _, .flt _ => .error .XPTY0004
  | .flt _, .dec _ => .error .XPTY0004
  | .flt .nan, _ => .ok (.flt .nan)
  | _, .flt .nan => .ok (.flt .nan)
  | .flt .inf, .flt .inf => .ok (.flt .nan)
  | .flt .inf, .flt .ninf => .ok (.flt .nan)
  | .flt .ninf, .flt .inf => .ok (.flt .nan)
  | .flt .ninf, .flt .ninf => .ok (.flt .nan)
  | .flt .inf, .int n => .ok (.flt (if n < 0 then .ninf else .inf))
  | .flt .inf, .flt (.fin q) => .ok (.flt (if q < 0 then .ninf else .inf))
  | .flt .ninf, .int n => .ok (.flt (if n < 0 then .inf else .ninf))
  | .flt .ninf, .flt (.fin q) => .ok (.flt (if q < 0 then .inf else .ninf))
  | .flt (.fin _), .flt .inf => .ok (.flt (.fin 0))
  | .flt (.fin _), .flt .ninf => .ok (.flt (.fin 0))
  | .int _, .flt .inf => .ok (.flt (.fin 0))
  | .int _, .flt .ninf => .ok (.flt (.fin 0))
  | .flt (.fin x), .flt (.fin y) => .ok (.flt (.fin (x / y)))
  | .flt (.fin x), .int n => .ok (.flt (.fin (x / (n : ℚ))))
  | .int n, .flt (.fin y) => .ok (.flt (.fin ((n : ℚ) / y)))
  | .int a, .int b => .ok (.flt (.fin ((a : ℚ) / (b : ℚ))))

/-- Embedding of the `div` operator's `evaluate` from
`src/elementpath/xpath1_parser.py` lines 695-731, starting after
`get_operands` (the operand pair is the input; `None` operands model an
empty sequence).  `compat` is `self.parser.compatibility_mode`, which the
`XPath1Parser` property at lines 110-113 fixes to `True`; the non-compat
(strict) branch is reachable only through subclasses.  The date-time and
duration operand branches are outside this numeric model. -/
def divEvaluate (compat : Bool) (ops : Option (XValue × XValue)) :
    Except AErr (Option XValue) :=
  match ops with
  | none => .ok none
  | some (dividend, divisor) =>
    if xNeZero divisor then
      match dividend, divisor with
      | .int a, .int b => .ok (some (.dec ((a : ℚ) / (b : ℚ))))
      | _, _ =>
        match pyDiv dividend divisor with
        | .ok v => .ok (some v)
        | .error e => .error e
    else
      if !compat && isIntOrDec dividend && isIntOrDec divisor then
        .error .FOAR0001
      else if xEqZero dividend then .ok (some (.flt .nan))
      else if xGtZero dividend then
        .ok (some (.flt (if strStartsNeg divisor then .ninf else .inf)))
      else
        .ok (some (.flt (if strStartsNeg divisor then .inf else .ninf)))

/-- Embedding of `XPath1Parser.compatibility_mode` (xpath1_parser.py lines 110-113):
always `True` for the XPath 1.0 parser. -/
def xpath1CompatibilityMode : Bool := true

/-- Rounding to an integer by `decimal` quantize semantics: nearest integer,
with ties resolved away from zero when `awayOnTie` is true (ROUND_HALF_UP)
and towards zero otherwise (ROUND_HALF_DOWN). -/
def quantizeHalf (awayOnTie : Bool) (q : ℚ) : ℤ :=
  if q - Int.floor q < 1/2 then Int.floor q
  else if (1 : ℚ)/2 < q - Int.floor q then Int.floor q + 1
  else if awayOnTie = decide (0 < q) then Int.floor q + 1 else Int.floor q

/-- Python's builtin `round` to the nearest integer, ties to even
(used by the `substring` function on its start and length arguments;
`round` on a `Decimal` also defaults to ROUND_HALF_EVEN). -/
def halfEven (q : ℚ) : ℤ :=
  if q - Int.floor q < 1/2 then Int.floor q
  else if (1 : ℚ)/2 < q - Int.floor q then Int.floor q + 1
  else if Int.floor q % 2 = 0 then Int.floor q else Int.floor q + 1

/-- Python `math.isnan(v)`. -/
def xIsNan : XValue → Bool
  | .flt .nan => true
  | _ => false

/-- Python `math.isinf(v)`. -/
def xIsInf : XValue → Bool
  | .flt .inf => true
  | .flt .ninf => true
  | _ => false

/-- Python `v <= 0` (`False` for NaN and +inf, `True` for -inf). -/
def xLeZero : XValue → Bool
  | .int n => n ≤ 0
  | .dec q => q ≤ 0
  | .flt (.fin q) => q ≤ 0
  | .flt .ninf => true
  | .flt .inf => false
  | .flt .nan => false

/-- Python `int(round(v))` for a finite numeric value (`round` is the identity on
`int`, ties-to-even on `float` and `Decimal`).  The callers only apply this
after excluding NaN and the infinities, for which this returns a junk 0. -/
def pyRoundX : XValue → ℤ
  | .int n => n
  | .dec q => halfEven q
  | .flt (.fin q) => halfEven q
  | .flt _ => 0

/-- Python slice `s[max(a,0):]`. -/
def pySliceFrom (s : String) (a : ℤ) : String := s.drop (max a 0).toNat

/-- Python slice `s[max(a,0):max(b,0)]`. -/
def pySlice (s : String) (a b : ℤ) : String :=
  (s.take (max b 0).toNat).drop (max a 0).toNat

/-- Embedding of `function('substring').evaluate`
(xpath1_parser.py lines 1173-1201) after argument fetching: `item` is the
first argument (`None` models a missing node value), `start` the second and
`length?` the optional third, both restricted to numeric values (the
`TypeError` branches for non-numbers are outside this model). -/
def substringEval (item : Option String) (start : XValue)
    (length? : Option XValue) : String :=
  if xIsNan start || xIsInf start then ""
  else
    let st : ℤ := pyRoundX start - 1
    match length? with
    | none =>
      match item with
      | none => ""
      | some it => pySliceFrom it st
    | some len =>
      if xIsNan len || xLeZero len then ""
      else
        match item with
        | none => ""
        | some it =>
          if xIsInf len then pySliceFrom it st
          else pySlice it st (st + pyRoundX len)

/-- Modelled from the spec: `number_value` lives in `xpath_token.py`, which
is not under `src/`; per section 4.G it converts an item to a float number
(NaN on failure).  On a value that is already numeric it yields that
number's float value, which is what the `round` evaluator feeds through it
in XPath 1.0 compatibility mode. -/
def numberValueX : XValue → XFloat
  | .int n => .fin (n : ℚ)
  | .dec q => .fin q
  | .flt f => f

/-- Embedding of `function('round').evaluate`
(xpath1_parser.py lines 1324-1344) after argument fetching: a missing
argument yields NaN (version 1.0), NaN and the infinities are returned
unchanged, and a finite value is quantized by `Decimal` with ROUND_HALF_UP
when positive and ROUND_HALF_DOWN otherwise. -/
def roundEvaluate (arg : Option XValue) : XValue :=
  match arg with
  | none => .flt .nan
  | some a =>
    match numberValueX a with
    | .nan => .flt .nan
    | .inf => .flt .inf
    | .ninf => .flt .ninf
    | .fin q =>
      .dec (((if 0 < q then quantizeHalf true q else quantizeHalf false q) : ℤ) : ℚ)

/-! ## TDOP parser model (`src/elementpath/tdop.py`) -/

/-- A token instance's value: Python string, int, Decimal or float. -/
inductive TValue where
  | s (v : String) : TValue
  | i (n : ℤ) : TValue
  | d (q : ℚ) : TValue
  | f (v : XFloat) : TValue
deriving DecidableEq, Repr

/-- A token instance as the Pratt driver sees it: its class symbol, its
value and its class left binding power (`Token` in tdop.py; the source span
and operand list play no role in the driver claims below). -/
structure Tok where
  symbol : String
  value : TValue
  lbp : ℕ
deriving DecidableEq, Repr

/-- One regex match of the tokenizer, classified by which of the five
alternation groups fired (literal, symbol, name, unknown catch-all, or the
skipped whitespace alternative). -/
inductive MatchG where
  | lit (v : String) : MatchG
  | sym (v : String) : MatchG
  | name (v : String) : MatchG
  | unk (v : String) : MatchG
  | ws (v : String) : MatchG
deriving DecidableEq, Repr

/-- Errors raised during parsing, by kind (`ParseError` subcases plus the
`AttributeError`/`ValueError` a `None` cursor or a bad `int()` would raise,
and fuel exhaustion standing for non-termination). -/
inductive PErr where
  | wrongSyntax (symbol : String) : PErr
  | invalidLiteral (lit : String) : PErr
  | unknownSymbol (v : String) : PErr
  | valueError (lit : String) : PErr
  | attrError : PErr
  | outOfFuel : PErr
deriving DecidableEq, Repr

/-- The parser's mutable cursor state (`Parser.__init__` fields). -/
structure PState where
  source : String := ""
  tokens : List MatchG := []
  mtch : Option MatchG := none
  token : Option Tok := none
  nextToken : Option Tok := none
deriving DecidableEq, Repr

/-- The static data of a concrete parser: its symbol table (membership,
binding powers of registered classes and of the special classes), its name
pattern, its dialect unescape, the denotation callbacks and the tokenizer.
`nud`/`led` are kept abstract because each registered token class supplies
its own; the driver theorems hold for every choice. -/
structure PSpec where
  isRegistered : String → Bool
  symLbp : String → ℕ
  nameMatch : String → Bool
  unescape : String → String
  specialLbp : String → ℕ
  nud : Tok → PState → Except (PErr × PState) (Tok × PState)
  led : Tok → Tok → PState → Except (PErr × PState) (Tok × PState)
  tokenize : String → List MatchG

/-- The `(end)` token materialized when the match iterator is exhausted. -/
def endTok (sp : PSpec) : Tok :=
  ⟨"(end)", .s "(end)", sp.specialLbp "(end)"⟩

/-- Digit string to number (the happy path of Python `int`). -/
def digitsToNat (cs : List Char) : ℕ :=
  cs.foldl (fun n c => 10 * n + (c.toNat - 48)) 0

/-- Parse `digits [. digits*]` or `. digits+` exactly (the mantissa shape
Python `float`/`Decimal` accept); `none` on a malformed string such as one
with two dots, which is what makes those constructors raise. -/
def parseMantissa (cs : List Char) : Option ℚ :=
  let ip := cs.takeWhile (·.isDigit)
  let rest := cs.dropWhile (·.isDigit)
  match rest with
  | [] => if ip.isEmpty then none else some ((digitsToNat ip : ℕ) : ℚ)
  | '.' :: rest2 =>
    let fp := rest2.takeWhile (·.isDigit)
    let rest3 := rest2.dropWhile (·.isDigit)
    if !rest3.isEmpty then none
    else if ip.isEmpty && fp.isEmpty then none
    else some (((digitsToNat ip : ℕ) : ℚ) +
      ((digitsToNat fp : ℕ) : ℚ) / ((10 : ℚ) ^ fp.length))
  | _ => none

/-- Parse an exponent part `[+-]? digits+`. -/
def parseExp (cs : List Char) : Option ℤ :=
  match cs with
  | '+' :: ds =>
    if ds.isEmpty || !ds.all (·.isDigit) then none
    else some ((digitsToNat ds : ℕ) : ℤ)
  | '-' :: ds =>
    if ds.isEmpty || !ds.all (·.isDigit) then none
    else some (-((digitsToNat ds : ℕ) : ℤ))
  | ds =>
    if ds.isEmpty || !ds.all (·.isDigit) then none
    else some ((digitsToNat ds : ℕ) : ℤ)

/-- Python `float(literal)` on the unsigned literals the tokenizer's literal
group produces: `none` models the `ValueError` on a malformed mantissa.  The
value is kept exact (IEEE rounding not re-modelled). -/
def pyFloatOfLit (v : String) : Option ℚ :=
  let cs := v.toList
  let pre := cs.takeWhile (fun c => c != 'e' && c != 'E')
  let post := cs.dropWhile (fun c => c != 'e' && c != 'E')
  match post with
  | [] => parseMantissa pre
  | _ :: expPart =>
    match parseMantissa pre, parseExp expPart with
    | some m, some e => some (m * (10 : ℚ) ^ e)
    | _, _ => none

/-- Python `Decimal(literal)` on the dot-containing, exponent-free literals
of the decimal branch: `none` models `DecimalException`. -/
def pyDecimalOfLit (v : String) : Option ℚ := parseMantissa v.toList

/-- Python `int(literal)` on a dotless, exponent-free literal. -/
def pyIntOfLit (v : String) : Option ℤ :=
  let cs := v.toList
  if cs.isEmpty || !cs.all (·.isDigit) then none
  else some ((digitsToNat cs : ℕ) : ℤ)

/-- The `while True` body of `Parser.advance` (tdop.py lines 429-478): pull
the next match, classify it by group, materialize the next token; errors
carry the state at raise time (the materialized `(invalid)`/`(unknown)`
token is visible in `next_token`).  Whitespace matches loop on. -/
def advanceLoop (sp : PSpec) : List MatchG → PState → Except (PErr × PState) PState
  | [], s => .ok { s with tokens := [], nextToken := some (endTok sp) }
  | m :: rest, s =>
    let s1 := { s with tokens := rest, mtch := some m }
    match m with
    | .sym v =>
      if sp.isRegistered v then
        .ok { s1 with nextToken := some ⟨v, .s v, sp.symLbp v⟩ }
      else if sp.nameMatch v then
        .ok { s1 with nextToken := some ⟨"(name)", .s v, sp.specialLbp "(name)"⟩ }
      else
        .error (.unknownSymbol v,
          { s1 with nextToken := some ⟨"(unknown)", .s v, sp.specialLbp "(unknown)"⟩ })
    | .lit v =>
      if v.startsWith "'" || v.startsWith "\"" then
        .ok { s1 with
          nextToken := some ⟨"(string)", .s (sp.unescape v), sp.specialLbp "(string)"⟩ }
      else if v.contains 'e' || v.contains 'E' then
        match pyFloatOfLit v with
        | some q =>
          .ok { s1 with
            nextToken := some ⟨"(float)", .f (.fin q), sp.specialLbp "(float)"⟩ }
        | none =>
          .error (.invalidLiteral v,
            { s1 with nextToken := some ⟨"(invalid)", .s v, sp.specialLbp "(invalid)"⟩ })
      else if v.contains '.' then
        match pyDecimalOfLit v with
        | some q =>
          .ok { s1 with
            nextToken := some ⟨"(decimal)", .d q, sp.specialLbp "(decimal)"⟩ }
        | none =>
          .error (.invalidLiteral v,
            { s1 with nextToken := some ⟨"(invalid)", .s v, sp.specialLbp "(invalid)"⟩ })
      else
        match pyIntOfLit v with
        | some n =>
          .ok { s1 with
            nextToken := some ⟨"(integer)", .i n, sp.specialLbp "(integer)"⟩ }
        | none => .error (.valueError v, s1)
    | .name v =>
      .ok { s1 with nextToken := some ⟨"(name)", .s v, sp.specialLbp "(name)"⟩ }
    | .unk v =>
      .error (.unknownSymbol v,
        { s1 with nextToken := some ⟨"(unknown)", .s v, sp.specialLbp "(unknown)"⟩ })
    | .ws _ => advanceLoop sp rest s1

/-- Embedding of `Parser.advance` (tdop.py lines 414-478): check the lookahead against
the expected symbols, shift it into `token`, then classify the next match. -/
def advance (sp : PSpec) (expected : List String) (s : PState) :
    Except (PErr × PState) PState :=
  match s.nextToken with
  | some nt =>
    if nt.symbol == "(end)" || (!expected.isEmpty && !expected.contains nt.symbol) then
      .error (.wrongSyntax nt.symbol, s)
    else advanceLoop sp s.tokens { s with token := some nt }
  | none => advanceLoop sp s.tokens { s with token := none }

/-- The `while rbp < self.next_token.lbp` loop of `Parser.expression`
(tdop.py lines 532-535), with fuel standing for termination. -/
def expressionLoop (sp : PSpec) (rbp : ℕ) :
    ℕ → Tok → PState → Except (PErr × PState) (Tok × PState)
  | 0, _, s => .error (.outOfFuel, s)
  | fuel + 1, left, s =>
    match s.nextToken with
    | none => .error (.attrError, s)
    | some nt =>
      if rbp < nt.lbp then
        match advance sp [] s with
        | .error e => .error e
        | .ok s1 =>
          match sp.led nt left s1 with
          | .error e => .error e
          | .ok (left1, s2) => expressionLoop sp rbp fuel left1 s2
      else .ok (left, s)

/-- Embedding of `Parser.expression` (tdop.py lines 520-536): take the lookahead, shift,
apply its null denotation, then run the left-denotation loop. -/
def expression (sp : PSpec) (fuel : ℕ) (rbp : ℕ) (s : PState) :
    Except (PErr × PState) (Tok × PState) :=
  match s.nextToken, advance sp [] s with
  | _, .error e => .error e
  | none, .ok s1 => .error (.attrError, s1)
  | some t, .ok s1 =>
    match sp.nud t s1 with
    | .error e => .error e
    | .ok (left, s2) => expressionLoop sp rbp fuel left s2

/-- The `finally` clause of `Parser.parse` (tdop.py lines 408-412). -/
def clearCursor (s : PState) : PState :=
  { s with tokens := [], mtch := none, token := none, nextToken := none }

/-- The `try` body of `Parser.parse` (tdop.py lines 397-407): install the
token iterator and the source, prime the lookahead, parse an expression at
rbp 0, and require the `(end)` lookahead. -/
def parseBody (sp : PSpec) (fuel : ℕ) (source : String) (s : PState) :
    Except (PErr × PState) (Tok × PState) :=
  let s0 := { s with tokens := sp.tokenize source, source := source }
  match advance sp [] s0 with
  | .error e => .error e
  | .ok s1 =>
    match expression sp fuel 0 s1 with
    | .error e => .error e
    | .ok (root, s2) =>
      match s2.nextToken with
      | none => .error (.attrError, s2)
      | some nt =>
        if nt.symbol == "(end)" then .ok (root, s2)
        else .error (.wrongSyntax nt.symbol, s2)

/-- Embedding of `Parser.parse` (tdop.py lines 388-412): run the body, then apply the
unconditional `finally` cursor reset to the exit state, success or error. -/
def parse (sp : PSpec) (fuel : ℕ) (source : String) (s : PState) :
    Except PErr Tok × PState :=
  match parseBody sp fuel source s with
  | .ok (t, s1) => (.ok t, clearCursor s1)
  | .error (e, s1) => (.error e, clearCursor s1)

/-! ## Symbol registration model (`Parser.register`) -/

/-- A keyword-argument value handed to `register`: an integer (binding
powers), a callable (denotation and evaluation methods), or any other
non-callable object. -/
inductive KwVal where
  | num (n : ℤ) : KwVal
  | fn (f : ℕ) : KwVal
  | other (tag : ℕ) : KwVal
deriving DecidableEq, Repr

/-- The mutable attributes of an already-registered token class that the
update path of `register` touches: the binding powers and the map of named
callable attributes. -/
structure TokenClassM where
  lbp : ℤ
  rbp : ℤ
  attrs : String → Option ℕ

/-- One iteration of the update loop of `Parser.register`
(tdop.py lines 642-648): `lbp`/`rbp` only grow strictly, any other callable
is installed via `setattr`, non-callables are ignored.  Comparing a
non-integer against a stored binding power raises `TypeError` in Python,
modelled by the error case. -/
def registerUpdateStep (tc : TokenClassM) (key : String) (v : KwVal) :
    Except Unit TokenClassM :=
  if key = "lbp" then
    match v with
    | .num n => .ok (if tc.lbp < n then { tc with lbp := n } else tc)
    | _ => .error ()
  else if key = "rbp" then
    match v with
    | .num n => .ok (if tc.rbp < n then { tc with rbp := n } else tc)
    | _ => .error ()
  else
    match v with
    | .fn f =>
      .ok { tc with attrs := fun k => if k = key then some f else tc.attrs k }
    | _ => .ok tc

/-- The `for key, value in kwargs.items()` update loop of `Parser.register`
on an already-registered symbol (tdop.py lines 641-650). -/
def registerUpdate (tc : TokenClassM) :
    List (String × KwVal) → Except Unit TokenClassM
  | [] => .ok tc
  | kv :: rest =>
    match registerUpdateStep tc kv.1 kv.2 with
    | .error e => .error e
    | .ok tc1 => registerUpdate tc1 rest

/-- How a `register(symbol, ...)` call is dispatched. -/
inductive RegisterOutcome where
  | invalidSymbol : RegisterOutcome
  | updated : RegisterOutcome
  | newClass : RegisterOutcome
  | unknownSymbol : RegisterOutcome
deriving DecidableEq, Repr

/-- The symbol-validation and dispatch path of `Parser.register`
(tdop.py lines 603-620): the `ValueError` for a symbol containing `' '`
(only the space character is tested), then lookup in the symbol table,
then the `NameError` for a symbol outside the parser's alphabet. -/
def registerDispatch (alphabet table : List String) (symbol : String) :
    RegisterOutcome :=
  if symbol.toList.contains ' ' then .invalidSymbol
  else if table.contains symbol then .updated
  else if alphabet.contains symbol then .newClass
  else .unknownSymbol

/-! ## XPath1Parser.parse wrapper and token equality -/

/-- Errors an `evaluate` call can raise, with `MissingContextError`
distinguished because `XPath1Parser.parse` suppresses exactly it. -/
inductive EvalErr where
  | missingContext : EvalErr
  | typeErr (msg : String) : EvalErr
  | valueErr (msg : String) : EvalErr
  | xpathErr (code : String) : EvalErr
deriving DecidableEq, Repr

/-- The body of `XPath1Parser.parse` (xpath1_parser.py lines 224-230): after
the base parse, evaluate the root once statically, suppress only
`MissingContextError`, and propagate every other evaluation error. -/
def xpath1ParseWrap (evalRoot : Tok → Except EvalErr Unit)
    (base : Except PErr Tok) : Except (PErr ⊕ EvalErr) Tok :=
  match base with
  | .error e => .error (.inl e)
  | .ok root =>
    match evalRoot root with
    | .ok _ => .ok root
    | .error e => if e = .missingContext then .ok root else .error (.inr e)

/-- Embedding of `XPath1Parser.parse` composed with the base `Parser.parse`. -/
def xpath1Parse (sp : PSpec) (fuel : ℕ) (evalRoot : Tok → Except EvalErr Unit)
    (source : String) (s : PState) : Except (PErr ⊕ EvalErr) Tok :=
  xpath1ParseWrap evalRoot (parse sp fuel source s).1

/-- A token tree node carrying its operand children, for `Token.__eq__`. -/
inductive TokenNode where
  | mk (symbol : String) (value : TValue) (children : List TokenNode) : TokenNode

def TokenNode.symbol : TokenNode → String
  | .mk v _ _ => v

def TokenNode.value : TokenNode → TValue
  | .mk _ v _ => v

def TokenNode.children : TokenNode → List TokenNode
  | .mk _ _ v => v

/-- Python `==` on token values: strings compare with strings, numbers
compare across `int`/`Decimal`/`float` by numeric value, NaN is not equal
to anything (itself included), and a string never equals a number. -/
def pyEqVal : TValue → TValue → Bool
  | .s a, .s b => a == b
  | .s _, _ => false
  | _, .s _ => false
  | .f .nan, _ => false
  | _, .f .nan => false
  | .f .inf, .f .inf => true
  | .f .ninf, .f .ninf => true
  | .f .inf, _ => false
  | _, .f .inf => false
  | .f .ninf, _ => false
  | _, .f .ninf => false
  | .i a, .i b => a == b
  | .i a, .d b => ((a : ℚ)) == b
  | .i a, .f (.fin b) => ((a : ℚ)) == b
  | .d a, .i b => a == ((b : ℚ))
  | .d a, .d b => a == b
  | .d a, .f (.fin b) => a == b
  | .f (.fin a), .i b => a == ((b : ℚ))
  | .f (.fin a), .d b => a == b
  | .f (.fin a), .f (.fin b) => a == b

/-- Embedding of `Token.__eq__` (tdop.py lines 203-207): compare `symbol` and `value`
only; the operand children do not participate. -/
def tokenEq (a b : TokenNode) : Bool :=
  a.symbol == b.symbol && pyEqVal a.value b.value

/-- Embedding of `XPath1Parser.unescape` (xpath1_parser.py lines 135-140): strip the
quotes and undo the dialect's quote doubling. -/
def xpath1Unescape (v : String) : String :=
  if v.startsWith "'" then ((v.drop 1).dropRight 1).replace "''" "'"
  else ((v.drop 1).dropRight 1).replace "\"\"" "\""

/-! ## Concrete instances used by the witnesses -/

/-- A minimal concrete parser: one registered symbol `+`, the XPath 1.0
unescape, `(name)` at binding power 10, trivial denotations, and a
tokenizer returning the single literal `1`. -/
def witSpec : PSpec where
  isRegistered := fun v => v == "+"
  symLbp := fun _ => 40
  nameMatch := fun _ => false
  unescape := xpath1Unescape
  specialLbp := fun v => if v == "(name)" then 10 else 0
  nud := fun t s => .ok (t, s)
  led := fun t _ s => .ok (t, s)
  tokenize := fun _ => [.lit "1"]

def witExprIn : PState := { nextToken := some ⟨"a", .s "a", 0⟩ }

def witExprTok : Tok := ⟨"a", .s "a", 0⟩

def witExprOut : PState :=
  { token := some ⟨"a", .s "a", 0⟩, nextToken := some ⟨"(end)", .s "(end)", 0⟩ }

def witC5In : PState := { tokens := [.lit "'ab'"] }

def witIntTok : Tok := ⟨"(integer)", .i 1, 0⟩

def witEvalMissing : Tok → Except EvalErr Unit := fun _ => .error .missingContext

def witTC : TokenClassM := ⟨5, 5, fun _ => none⟩

def witTCOut : TokenClassM := ⟨5, 5, fun k => if k = "nud" then some 7 else none⟩

/-- The tree `(+ 1 2)` as a token node. -/
def exPlusTree : TokenNode :=
  .mk "+" (.s "+") [.mk "(integer)" (.i 1) [], .mk "(integer)" (.i 2) []]

/-- A childless `+` token with the same symbol and value. -/
def exPlusLeaf : TokenNode := .mk "+" (.s "+") []

/-! ## Theorems -/

/-- C1: For the XPath 1.0 `div` operator: integer `1 div 0` raises
FOAR0001 in strict mode (the non-compatibility branch guarded by
`compatibility_mode`, which `XPath1Parser` fixes to `True`); `1.0 div 0`
(the literal `1.0` tokenizes to the decimal 1) yields +infinity;
`-1.0 div 0` yields -infinity; `0e0 div 0` (the literal `0e0` tokenizes to
the float 0) yields NaN; and `div` on two integers with a non-zero divisor
returns a decimal value. -/
theorem div_operator_zero_and_decimal :
    divEvaluate false (some (.int 1, .int 0)) = .error .FOAR0001
  ∧ divEvaluate true (some (.dec 1, .int 0)) = .ok (some (.flt .inf))
  ∧ divEvaluate true (some (.dec (-1), .int 0)) = .ok (some (.flt .ninf))
  ∧ divEvaluate true (some (.flt (.fin 0), .int 0)) = .ok (some (.flt .nan))
  ∧ pyDecimalOfLit "1.0" = some 1
  ∧ pyFloatOfLit "0e0" = some 0
  ∧ xpath1CompatibilityMode = true
  ∧ (∀ a b : ℤ, b ≠ 0 →
      divEvaluate true (some (.int a, .int b)) =
        .ok (some (.dec (((a : ℤ) : ℚ) / ((b : ℤ) : ℚ))))) := by
  refine ⟨by rfl, by rfl, by rfl, by rfl, by with_unfolding_all rfl,
    by with_unfolding_all rfl, rfl, ?_⟩
  intro a b hb
  simp [divEvaluate, xNeZero, hb]

/-- Witness for C1: `3 div 2` evaluates to the decimal `3/2`. -/
theorem div_operator_zero_and_decimal_witness :
    divEvaluate true (some (.int 3, .int 2)) =
      .ok (some (.dec (((3 : ℤ) : ℚ) / ((2 : ℤ) : ℚ)))) :=
  div_operator_zero_and_decimal.2.2.2.2.2.2.2 3 2 (by decide)

/-- C4: every `Parser.parse` call, returning or raising, leaves the cursor
state cleared on exit: `tokens` emptied and `match`, `token`, `next_token`
reset to `None`. -/
theorem parse_clears_cursor_state (sp : PSpec) (fuel : ℕ) (source : String)
    (s : PState) :
    (parse sp fuel source s).2.tokens = []
  ∧ (parse sp fuel source s).2.mtch = none
  ∧ (parse sp fuel source s).2.token = none
  ∧ (parse sp fuel source s).2.nextToken = none := by
  cases h : parseBody sp fuel source s with
  | ok v => obtain ⟨t, s1⟩ := v; simp [parse, h, clearCursor]
  | error v => obtain ⟨e, s1⟩ := v; simp [parse, h, clearCursor]

/-- C8 counterexample: the symbol `a<TAB>b` contains a whitespace
character, yet `register` does not fail with the invalid-symbol error;
with the symbol outside the alphabet it falls through to the
unknown-symbol `NameError` instead (only `' '` is tested). -/
theorem register_whitespace_counterexample :
    ("a\tb".toList.any (·.isWhitespace)) = true
  ∧ registerDispatch [] [] "a\tb" ≠ .invalidSymbol
  ∧ registerDispatch [] [] "a\tb" = .unknownSymbol := by decide

/-- C8 (amended): `register` fails with the invalid-symbol error exactly
for symbols containing the space character `' '`; other whitespace
characters are not caught by this check. -/
theorem register_space_invalid (alphabet table : List String)
    (symbol : String) (h : symbol.toList.contains ' ' = true) :
    registerDispatch alphabet table symbol = .invalidSymbol := by
  unfold registerDispatch
  rw [h]
  simp

/-- Witness for the amended C8: a symbol with an inner space is rejected
as invalid. -/
theorem register_space_invalid_witness :
    registerDispatch [] [] "a b" = .invalidSymbol :=
  register_space_invalid [] [] "a b" (by decide)

/-- C9: after a successful base parse, `XPath1Parser.parse` evaluates the
root once with no context; a root is returned exactly when that static
evaluation raises nothing or only `MissingContextError`, and every other
evaluation error propagates out of `parse`. -/
theorem xpath1_parse_static_evaluation (sp : PSpec) (fuel : ℕ)
    (evalRoot : Tok → Except EvalErr Unit) (source : String) (s : PState) :
    (∀ root, xpath1Parse sp fuel evalRoot source s = .ok root →
      (parse sp fuel source s).1 = .ok root ∧
        (evalRoot root = .ok () ∨ evalRoot root = .error .missingContext))
  ∧ (∀ root, (parse sp fuel source s).1 = .ok root →
      evalRoot root = .error .missingContext →
      xpath1Parse sp fuel evalRoot source s = .ok root)
  ∧ (∀ root e, (parse sp fuel source s).1 = .ok root →
      evalRoot root = .error e → e ≠ .missingContext →
      xpath1Parse sp fuel evalRoot source s = .error (.inr e)) := by
  refine ⟨?_, ?_, ?_⟩
  · intro root h
    unfold xpath1Parse at h
    cases hb : (parse sp fuel source s).1 with
    | error e => rw [hb] at h; simp [xpath1ParseWrap] at h
    | ok r =>
      rw [hb] at h
      cases he : evalRoot r with
      | ok u =>
        simp [xpath1ParseWrap, he] at h
        subst h
        exact ⟨rfl, .inl (by cases u; exact he)⟩
      | error ee =>
        simp [xpath1ParseWrap, he] at h
        by_cases hm : ee = .missingContext
        · rw [if_pos hm] at h
          simp at h
          subst h
          exact ⟨rfl, .inr (hm ▸ he)⟩
        · rw [if_neg hm] at h
          simp at h
  · intro root hb he
    unfold xpath1Parse
    rw [hb]
    simp [xpath1ParseWrap, he]
  · intro root e hb he hne
    unfold xpath1Parse
    rw [hb]
    simp [xpath1ParseWrap, he, hne]

/-- Witness for C9: parsing the source `1` with a static evaluation that
raises only `MissingContextError` returns the integer root token. -/
theorem xpath1_parse_static_evaluation_witness :
    xpath1Parse witSpec 2 witEvalMissing "1" {} = .ok witIntTok :=
  (xpath1_parse_static_evaluation witSpec 2 witEvalMissing "1" {}).2.1
    witIntTok (by with_unfolding_all rfl) rfl

/-- C10: token equality compares exactly the `symbol` and `value`
attributes and ignores the children: a full `(+ 1 2)` tree and a childless
`+` token with the same value compare equal. -/
theorem token_eq_ignores_children :
    (∀ t1 t2 : TokenNode, tokenEq t1 t2 = true ↔
      (t1.symbol = t2.symbol ∧ pyEqVal t1.value t2.value = true))
  ∧ tokenEq exPlusTree exPlusLeaf = true
  ∧ exPlusTree.children ≠ exPlusLeaf.children := by
  refine ⟨?_, rfl, ?_⟩
  · intro t1 t2
    simp [tokenEq]
  · simp [exPlusTree, exPlusLeaf, TokenNode.children]

/-- Witness for C10: the concrete equal-despite-children pair. -/
theorem token_eq_ignores_children_witness :
    tokenEq exPlusTree exPlusLeaf = true :=
  token_eq_ignores_children.2.1

/-- The `while` loop of `expression` can only exit normally through the
failed loop test, so the lookahead it leaves satisfies `lbp ≤ rbp`,
whatever the led callbacks do. -/
theorem expressionLoop_lookahead_le (sp : PSpec) (rbp : ℕ) :
    ∀ (fuel : ℕ) (left : Tok) (s : PState) (t : Tok) (s1 : PState),
      expressionLoop sp rbp fuel left s = .ok (t, s1) →
      ∃ nt, s1.nextToken = some nt ∧ nt.lbp ≤ rbp := by
  intro fuel
  induction fuel with
  | zero =>
    intro left s t s1 h
    simp [expressionLoop] at h
  | succ n ih =>
    intro left s t s1 h
    unfold expressionLoop at h
    split at h
    · simp at h
    · next nt hnt =>
      split at h
      · split at h
        · simp at h
        · split at h
          · simp at h
          · exact ih _ _ _ _ h
      · next hlt =>
        obtain ⟨rfl, rfl⟩ : left = t ∧ s = s1 := by simpa using h
        exact ⟨nt, hnt, Nat.le_of_not_lt hlt⟩

/-- C2: whenever `Parser.expression(rbp)` returns normally, the parser's
lookahead token at the moment of return satisfies `next_token.lbp ≤ rbp`,
for every right binding power, source state and denotation callbacks. -/
theorem expression_lookahead_lbp_le (sp : PSpec) (fuel rbp : ℕ) (s : PState)
    (t : Tok) (s1 : PState) (h : expression sp fuel rbp s = .ok (t, s1)) :
    ∃ nt, s1.nextToken = some nt ∧ nt.lbp ≤ rbp := by
  unfold expression at h
  split at h
  · simp at h
  · simp at h
  · split at h
    · simp at h
    · exact expressionLoop_lookahead_le sp rbp _ _ _ _ _ h

/-- Witness for C2: a one-token expression returns with the `(end)`
lookahead, whose lbp 0 is at most the requested rbp 0. -/
theorem expression_lookahead_lbp_le_witness :
    ∃ nt, witExprOut.nextToken = some nt ∧ nt.lbp ≤ 0 :=
  expression_lookahead_lbp_le witSpec 1 0 witExprIn witExprTok witExprOut
    (by with_unfolding_all rfl)

/-- One register-update step never lowers a binding power. -/
theorem registerUpdateStep_bp_mono (tc tc1 : TokenClassM) (key : String)
    (v : KwVal) (h : registerUpdateStep tc key v = .ok tc1) :
    tc.lbp ≤ tc1.lbp ∧ tc.rbp ≤ tc1.rbp := by
  unfold registerUpdateStep at h
  by_cases hk1 : key = "lbp"
  · rw [if_pos hk1] at h
    cases v with
    | num n =>
      obtain rfl : _ = tc1 := by simpa using h
      by_cases hlt : tc.lbp < n
      · rw [if_pos hlt]; exact ⟨le_of_lt hlt, le_refl _⟩
      · rw [if_neg hlt]; exact ⟨le_refl _, le_refl _⟩
    | fn f => simp at h
    | other t => simp at h
  · rw [if_neg hk1] at h
    by_cases hk2 : key = "rbp"
    · rw [if_pos hk2] at h
      cases v with
      | num n =>
        obtain rfl : _ = tc1 := by simpa using h
        by_cases hlt : tc.rbp < n
        · rw [if_pos hlt]; exact ⟨le_refl _, le_of_lt hlt⟩
        · rw [if_neg hlt]; exact ⟨le_refl _, le_refl _⟩
      | fn f => simp at h
      | other t => simp at h
    · rw [if_neg hk2] at h
      cases v with
      | num n =>
        obtain rfl : tc = tc1 := by simpa using h
        exact ⟨le_refl _, le_refl _⟩
      | fn f =>
        obtain rfl : _ = tc1 := by simpa using h
        exact ⟨le_refl _, le_refl _⟩
      | other t =>
        obtain rfl : tc = tc1 := by simpa using h
        exact ⟨le_refl _, le_refl _⟩

/-- A step whose key is not `lbp` leaves the stored lbp untouched. -/
theorem registerUpdateStep_lbp_other (tc tc1 : TokenClassM) (key : String)
    (v : KwVal) (hk : ¬key = "lbp") (h : registerUpdateStep tc key v = .ok tc1) :
    tc1.lbp = tc.lbp := by
  unfold registerUpdateStep at h
  rw [if_neg hk] at h
  by_cases hk2 : key = "rbp"
  · rw [if_pos hk2] at h
    cases v with
    | num n =>
      obtain rfl : _ = tc1 := by simpa using h
      by_cases hlt : tc.rbp < n
      · rw [if_pos hlt]
      · rw [if_neg hlt]
    | fn f => simp at h
    | other t => simp at h
  · rw [if_neg hk2] at h
    cases v with
    | num n =>
      obtain rfl : tc = tc1 := by simpa using h
      rfl
    | fn f =>
      obtain rfl : _ = tc1 := by simpa using h
      rfl
    | other t =>
      obtain rfl : tc = tc1 := by simpa using h
      rfl

/-- A step whose key is not `rbp` leaves the stored rbp untouched. -/
theorem registerUpdateStep_rbp_other (tc tc1 : TokenClassM) (key : String)
    (v : KwVal) (hk : ¬key = "rbp") (h : registerUpdateStep tc key v = .ok tc1) :
    tc1.rbp = tc.rbp := by
  unfold registerUpdateStep at h
  by_cases hk1 : key = "lbp"
  · rw [if_pos hk1] at h
    cases v with
    | num n =>
      obtain rfl : _ = tc1 := by simpa using h
      by_cases hlt : tc.lbp < n
      · rw [if_pos hlt]
      · rw [if_neg hlt]
    | fn f => simp at h
    | other t => simp at h
  · rw [if_neg hk1, if_neg hk] at h
    cases v with
    | num n =>
      obtain rfl : tc = tc1 := by simpa using h
      rfl
    | fn f =>
      obtain rfl : _ = tc1 := by simpa using h
      rfl
    | other t =>
      obtain rfl : tc = tc1 := by simpa using h
      rfl

/-- A step changes the attribute map at most at its own key. -/
theorem registerUpdateStep_attrs_other (tc tc1 : TokenClassM) (key : String)
    (v : KwVal) (k : String) (hk : ¬k = key)
    (h : registerUpdateStep tc key v = .ok tc1) :
    tc1.attrs k = tc.attrs k := by
  unfold registerUpdateStep at h
  by_cases hk1 : key = "lbp"
  · rw [if_pos hk1] at h
    cases v with
    | num n =>
      obtain rfl : _ = tc1 := by simpa using h
      by_cases hlt : tc.lbp < n
      · rw [if_pos hlt]
      · rw [if_neg hlt]
    | fn f => simp at h
    | other t => simp at h
  · rw [if_neg hk1] at h
    by_cases hk2 : key = "rbp"
    · rw [if_pos hk2] at h
      cases v with
      | num n =>
        obtain rfl : _ = tc1 := by simpa using h
        by_cases hlt : tc.rbp < n
        · rw [if_pos hlt]
        · rw [if_neg hlt]
      | fn f => simp at h
      | other t => simp at h
    · rw [if_neg hk2] at h
      cases v with
      | num n =>
        obtain rfl : tc = tc1 := by simpa using h
        rfl
      | fn f =>
        obtain rfl : _ = tc1 := by simpa using h
        simp [hk]
      | other t =>
        obtain rfl : tc = tc1 := by simpa using h
        rfl

/-- A step with a callable value at a non-binding-power key installs it. -/
theorem registerUpdateStep_attrs_set (tc tc1 : TokenClassM) (key : String)
    (f : ℕ) (hk1 : ¬key = "lbp") (hk2 : ¬key = "rbp")
    (h : registerUpdateStep tc key (.fn f) = .ok tc1) :
    tc1.attrs key = some f := by
  unfold registerUpdateStep at h
  rw [if_neg hk1, if_neg hk2] at h
  obtain rfl : _ = tc1 := by simpa using h
  simp

/-- The update loop never lowers the binding powers. -/
theorem registerUpdate_bp_mono :
    ∀ (l : List (String × KwVal)) (tc tc1 : TokenClassM),
      registerUpdate tc l = .ok tc1 → tc.lbp ≤ tc1.lbp ∧ tc.rbp ≤ tc1.rbp := by
  intro l
  induction l with
  | nil =>
    intro tc tc1 h
    obtain rfl : tc = tc1 := by simpa [registerUpdate] using h
    exact ⟨le_refl _, le_refl _⟩
  | cons kv rest ih =>
    intro tc tc1 h
    unfold registerUpdate at h
    split at h
    · simp at h
    · next tc2 hst =>
      obtain ⟨h1l, h1r⟩ := registerUpdateStep_bp_mono tc tc2 kv.1 kv.2 hst
      obtain ⟨h2l, h2r⟩ := ih tc2 tc1 h
      exact ⟨le_trans h1l h2l, le_trans h1r h2r⟩

/-- At key `lbp`, an update whose supplied power does not exceed the stored
one leaves the class unchanged (non-numeric values raise). -/
theorem registerUpdateStep_lbp_key (tc tc2 : TokenClassM) (v : KwVal)
    (h : registerUpdateStep tc "lbp" v = .ok tc2)
    (hsmall : ∀ n, v = KwVal.num n → n ≤ tc.lbp) : tc2 = tc := by
  unfold registerUpdateStep at h
  rw [if_pos rfl] at h
  cases v with
  | num n =>
    simp only [Except.ok.injEq] at h
    rw [if_neg (not_lt.mpr (hsmall n rfl))] at h
    exact h.symm
  | fn f => simp at h
  | other t => simp at h

/-- At key `rbp`, an update whose supplied power does not exceed the stored
one leaves the class unchanged (non-numeric values raise). -/
theorem registerUpdateStep_rbp_key (tc tc2 : TokenClassM) (v : KwVal)
    (h : registerUpdateStep tc "rbp" v = .ok tc2)
    (hsmall : ∀ n, v = KwVal.num n → n ≤ tc.rbp) : tc2 = tc := by
  unfold registerUpdateStep at h
  rw [if_neg (by decide), if_pos rfl] at h
  cases v with
  | num n =>
    simp only [Except.ok.injEq] at h
    rw [if_neg (not_lt.mpr (hsmall n rfl))] at h
    exact h.symm
  | fn f => simp at h
  | other t => simp at h

/-- If every `lbp` entry of the kwargs is at most the stored lbp, the loop
leaves the stored lbp unchanged. -/
theorem registerUpdate_lbp_unchanged :
    ∀ (l : List (String × KwVal)) (tc tc1 : TokenClassM),
      registerUpdate tc l = .ok tc1 →
      (∀ m, ("lbp", KwVal.num m) ∈ l → m ≤ tc.lbp) → tc1.lbp = tc.lbp := by
  intro l
  induction l with
  | nil =>
    intro tc tc1 h _
    obtain rfl : tc = tc1 := by simpa [registerUpdate] using h
    rfl
  | cons kv rest ih =>
    intro tc tc1 h hall
    unfold registerUpdate at h
    split at h
    · simp at h
    · next tc2 hst =>
      have h2 : tc2.lbp = tc.lbp := by
        by_cases hk : kv.1 = "lbp"
        · have hst2 : registerUpdateStep tc "lbp" kv.2 = .ok tc2 := by
            rw [← hk]; exact hst
          have heq : tc2 = tc := by
            refine registerUpdateStep_lbp_key tc tc2 kv.2 hst2 ?_
            intro n hv
            apply hall n
            have hkv : kv = ("lbp", KwVal.num n) := by rw [← hk, ← hv]
            exact hkv ▸ List.mem_cons_self kv rest
          rw [heq]
        · exact registerUpdateStep_lbp_other tc tc2 kv.1 kv.2 hk hst
      rw [ih tc2 tc1 h (fun m hm => h2 ▸ hall m (List.mem_cons_of_mem _ hm)), h2]

/-- If every `rbp` entry of the kwargs is at most the stored rbp, the loop
leaves the stored rbp unchanged. -/
theorem registerUpdate_rbp_unchanged :
    ∀ (l : List (String × KwVal)) (tc tc1 : TokenClassM),
      registerUpdate tc l = .ok tc1 →
      (∀ m, ("rbp", KwVal.num m) ∈ l → m ≤ tc.rbp) → tc1.rbp = tc.rbp := by
  intro l
  induction l with
  | nil =>
    intro tc tc1 h _
    obtain rfl : tc = tc1 := by simpa [registerUpdate] using h
    rfl
  | cons kv rest ih =>
    intro tc tc1 h hall
    unfold registerUpdate at h
    split at h
    · simp at h
    · next tc2 hst =>
      have h2 : tc2.rbp = tc.rbp := by
        by_cases hk : kv.1 = "rbp"
        · have hst2 : registerUpdateStep tc "rbp" kv.2 = .ok tc2 := by
            rw [← hk]; exact hst
          have heq : tc2 = tc := by
            refine registerUpdateStep_rbp_key tc tc2 kv.2 hst2 ?_
            intro n hv
            apply hall n
            have hkv : kv = ("rbp", KwVal.num n) := by rw [← hk, ← hv]
            exact hkv ▸ List.mem_cons_self kv rest
          rw [heq]
        · exact registerUpdateStep_rbp_other tc tc2 kv.1 kv.2 hk hst
      rw [ih tc2 tc1 h (fun m hm => h2 ▸ hall m (List.mem_cons_of_mem _ hm)), h2]

/-- The loop does not touch attribute entries whose key never occurs. -/
theorem registerUpdate_attrs_preserve :
    ∀ (l : List (String × KwVal)) (tc tc1 : TokenClassM) (k : String),
      registerUpdate tc l = .ok tc1 → k ∉ l.map Prod.fst →
      tc1.attrs k = tc.attrs k := by
  intro l
  induction l with
  | nil =>
    intro tc tc1 k h _
    obtain rfl : tc = tc1 := by simpa [registerUpdate] using h
    rfl
  | cons kv rest ih =>
    intro tc tc1 k h hk
    unfold registerUpdate at h
    split at h
    · simp at h
    · next tc2 hst =>
      simp only [List.map_cons, List.mem_cons, not_or] at hk
      rw [ih tc2 tc1 k h hk.2,
        registerUpdateStep_attrs_other tc tc2 kv.1 kv.2 k hk.1 hst]

/-- With dict-unique keys, a callable entry at a non-binding-power key ends
up installed in the attribute map. -/
theorem registerUpdate_attrs_final :
    ∀ (l : List (String × KwVal)) (tc tc1 : TokenClassM) (k : String) (f : ℕ),
      (l.map Prod.fst).Nodup → (k, KwVal.fn f) ∈ l →
      ¬k = "lbp" → ¬k = "rbp" → registerUpdate tc l = .ok tc1 →
      tc1.attrs k = some f := by
  intro l
  induction l with
  | nil => intro tc tc1 k f _ hm; simp at hm
  | cons kv rest ih =>
    intro tc tc1 k f hnd hm hk1 hk2 h
    unfold registerUpdate at h
    split at h
    · simp at h
    · next tc2 hst =>
      simp only [List.map_cons, List.nodup_cons] at hnd
      rcases List.mem_cons.mp hm with heq | hmem
      · have hkey : kv.1 = k := by rw [← heq]
        have hval : kv.2 = KwVal.fn f := by rw [← heq]
        rw [hkey, hval] at hst
        have hset := registerUpdateStep_attrs_set tc tc2 k f hk1 hk2 hst
        have hnotin : k ∉ rest.map Prod.fst := by rw [← hkey]; exact hnd.1
        rw [registerUpdate_attrs_preserve rest tc2 tc1 k h hnotin, hset]
      · exact ih tc2 tc1 k f hnd.2 hmem hk1 hk2 h

/-- With duplicate-free keys (kwargs is a Python dict), two entries sharing
a key carry equal values. -/
theorem nodupKeys_val_eq {β : Type} :
    ∀ (l : List (String × β)) (a : String) (b₁ b₂ : β),
      (l.map Prod.fst).Nodup → (a, b₁) ∈ l → (a, b₂) ∈ l → b₁ = b₂ := by
  intro l
  induction l with
  | nil =>
    intro a b₁ b₂ _ h1 _
    simp at h1
  | cons kv rest ih =>
    intro a b₁ b₂ hnd h1 h2
    simp only [List.map_cons, List.nodup_cons] at hnd
    rcases List.mem_cons.mp h1 with he1 | hm1
    · rcases List.mem_cons.mp h2 with he2 | hm2
      · exact (Prod.ext_iff.mp (he1.trans he2.symm)).2
      · exfalso
        apply hnd.1
        rw [← he1]
        simpa using List.mem_map_of_mem Prod.fst hm2
    · rcases List.mem_cons.mp h2 with he2 | hm2
      · exfalso
        apply hnd.1
        rw [← he2]
        simpa using List.mem_map_of_mem Prod.fst hm1
      · exact ih a b₁ b₂ hnd.2 hm1 hm2

/-- C3: on an already-registered symbol, `register` only ever raises the
stored lbp and rbp (an update supplying a smaller binding power leaves the
stored value unchanged), while callable attributes in the kwargs overwrite
the existing ones. -/
theorem register_update_monotone (tc tc1 : TokenClassM)
    (kwargs : List (String × KwVal)) (hnd : (kwargs.map Prod.fst).Nodup)
    (h : registerUpdate tc kwargs = .ok tc1) :
    tc.lbp ≤ tc1.lbp ∧ tc.rbp ≤ tc1.rbp
  ∧ (∀ n, ("lbp", KwVal.num n) ∈ kwargs → n ≤ tc.lbp → tc1.lbp = tc.lbp)
  ∧ (∀ n, ("rbp", KwVal.num n) ∈ kwargs → n ≤ tc.rbp → tc1.rbp = tc.rbp)
  ∧ (∀ k f, (k, KwVal.fn f) ∈ kwargs → ¬k = "lbp" → ¬k = "rbp" →
      tc1.attrs k = some f) := by
  obtain ⟨hl, hr⟩ := registerUpdate_bp_mono kwargs tc tc1 h
  refine ⟨hl, hr, ?_, ?_, ?_⟩
  · intro n hn hle
    refine registerUpdate_lbp_unchanged kwargs tc tc1 h ?_
    intro m hm
    cases nodupKeys_val_eq kwargs "lbp" (KwVal.num m) (KwVal.num n) hnd hm hn
    exact hle
  · intro n hn hle
    refine registerUpdate_rbp_unchanged kwargs tc tc1 h ?_
    intro m hm
    cases nodupKeys_val_eq kwargs "rbp" (KwVal.num m) (KwVal.num n) hnd hm hn
    exact hle
  · intro k f hm hk1 hk2
    exact registerUpdate_attrs_final kwargs tc tc1 k f hnd hm hk1 hk2 h

/-- Witness for C3: updating a class with stored powers 5 by
`lbp=3, nud=<callable 7>` keeps lbp at 5 and installs the callable. -/
theorem register_update_monotone_witness :
    witTC.lbp ≤ witTCOut.lbp ∧ witTCOut.lbp = witTC.lbp
  ∧ witTCOut.attrs "nud" = some 7 := by
  have h := register_update_monotone witTC witTCOut
    [("lbp", .num 3), ("nud", .fn 7)] (by decide) rfl
  exact ⟨h.1, h.2.2.1 3 (by decide) (by decide),
    h.2.2.2.2 "nud" 7 (by decide) (by decide) (by decide)⟩

/-- C5: when `advance` consumes a match from the literal group: a quoted
literal becomes a `(string)` token holding the unescaped value; otherwise a
literal containing `e`/`E` becomes `(float)`; otherwise one containing `.`
becomes `(decimal)`; otherwise `(integer)`; and a malformed numeric literal
materializes an `(invalid)` token in the lookahead and raises a parse
error. -/
theorem advance_literal_group (sp : PSpec) (s : PState) (lit : String)
    (rest : List MatchG) (hts : s.tokens = .lit lit :: rest)
    (hnt : s.nextToken = none) :
    ((lit.startsWith "'" || lit.startsWith "\"") = true →
      advance sp [] s = .ok
        { s with
          tokens := rest, mtch := some (.lit lit), token := none,
          nextToken := some ⟨"(string)", .s (sp.unescape lit), sp.specialLbp "(string)"⟩ })
  ∧ ((lit.startsWith "'" || lit.startsWith "\"") = false →
      (lit.contains 'e' || lit.contains 'E') = true →
      ∀ q, pyFloatOfLit lit = some q →
      advance sp [] s = .ok
        { s with
          tokens := rest, mtch := some (.lit lit), token := none,
          nextToken := some ⟨"(float)", .f (.fin q), sp.specialLbp "(float)"⟩ })
  ∧ ((lit.startsWith "'" || lit.startsWith "\"") = false →
      (lit.contains 'e' || lit.contains 'E') = true →
      pyFloatOfLit lit = none →
      advance sp [] s = .error (.invalidLiteral lit,
        { s with
          tokens := rest, mtch := some (.lit lit), token := none,
          nextToken := some ⟨"(invalid)", .s lit, sp.specialLbp "(invalid)"⟩ }))
  ∧ ((lit.startsWith "'" || lit.startsWith "\"") = false →
      (lit.contains 'e' || lit.contains 'E') = false →
      lit.contains '.' = true →
      ∀ q, pyDecimalOfLit lit = some q →
      advance sp [] s = .ok
        { s with
          tokens := rest, mtch := some (.lit lit), token := none,
          nextToken := some ⟨"(decimal)", .d q, sp.specialLbp "(decimal)"⟩ })
  ∧ ((lit.startsWith "'" || lit.startsWith "\"") = false →
      (lit.contains 'e' || lit.contains 'E') = false →
      lit.contains '.' = true →
      pyDecimalOfLit lit = none →
      advance sp [] s = .error (.invalidLiteral lit,
        { s with
          tokens := rest, mtch := some (.lit lit), token := none,
          nextToken := some ⟨"(invalid)", .s lit, sp.specialLbp "(invalid)"⟩ }))
  ∧ ((lit.startsWith "'" || lit.startsWith "\"") = false →
      (lit.contains 'e' || lit.contains 'E') = false →
      lit.contains '.' = false →
      ∀ n, pyIntOfLit lit = some n →
      advance sp [] s = .ok
        { s with
          tokens := rest, mtch := some (.lit lit), token := none,
          nextToken := some ⟨"(integer)", .i n, sp.specialLbp "(integer)"⟩ }) := by
  have hadv : advance sp [] s =
      advanceLoop sp (MatchG.lit lit :: rest) { s with token := none } := by
    unfold advance
    rw [hnt, hts]
  refine ⟨?_, ?_, ?_, ?_, ?_, ?_⟩
  · intro h1
    rw [hadv]
    simp [advanceLoop, h1]
  · intro h1 h2 q hq
    rw [hadv]
    simp [advanceLoop, h1, h2, hq]
  · intro h1 h2 hq
    rw [hadv]
    simp [advanceLoop, h1, h2, hq]
  · intro h1 h2 h3 q hq
    rw [hadv]
    simp [advanceLoop, h1, h2, h3, hq]
  · intro h1 h2 h3 hq
    rw [hadv]
    simp [advanceLoop, h1, h2, h3, hq]
  · intro h1 h2 h3 n hn
    rw [hadv]
    simp [advanceLoop, h1, h2, h3, hn]

/-- Witness for C5: consuming the quoted literal `'ab'` produces a
`(string)` token holding the unescaped value. -/
theorem advance_literal_group_witness :
    advance witSpec [] witC5In = .ok
      { witC5In with
        tokens := ([] : List MatchG), mtch := some (.lit "'ab'"), token := none,
        nextToken := some ⟨"(string)", .s (witSpec.unescape "'ab'"),
          witSpec.specialLbp "(string)"⟩ } :=
  (advance_literal_group witSpec witC5In "'ab'" [] rfl rfl).1
    (by with_unfolding_all rfl)

/-- C6: the XPath `substring` function treats `start` as 1-based and rounds
it; NaN or infinite start yields the empty string; NaN or non-positive
length yields the empty string; infinite length yields the suffix from
start; otherwise the result is the slice over
`[max(start-1,0), max(start-1+round(length),0))`; and
`substring("12345", 1.5, 2.6)` evaluates to `"234"`. -/
theorem substring_semantics :
    (∀ (s : String) (l : Option XValue), substringEval (some s) (.flt .nan) l = "")
  ∧ (∀ (s : String) (l : Option XValue),
      substringEval (some s) (.flt .inf) l = ""
      ∧ substringEval (some s) (.flt .ninf) l = "")
  ∧ (∀ (s : String) (st : XValue), xIsNan st = false → xIsInf st = false →
      substringEval (some s) st (some (.flt .nan)) = "")
  ∧ (∀ (s : String) (st len : XValue), xIsNan st = false → xIsInf st = false →
      xLeZero len = true → substringEval (some s) st (some len) = "")
  ∧ (∀ (s : String) (st : XValue), xIsNan st = false → xIsInf st = false →
      substringEval (some s) st (some (.flt .inf)) =
        pySliceFrom s (pyRoundX st - 1))
  ∧ (∀ (s : String) (q r : ℚ), ¬(r ≤ 0) →
      substringEval (some s) (.flt (.fin q)) (some (.flt (.fin r))) =
        pySlice s (halfEven q - 1) (halfEven q - 1 + halfEven r))
  ∧ substringEval (some "12345") (.flt (.fin (3/2))) (some (.flt (.fin (13/5)))) =
      "234" := by
  refine ⟨?_, ?_, ?_, ?_, ?_, ?_, by with_unfolding_all rfl⟩
  · intro s l
    have hna : xIsNan (XValue.flt .nan) = true := rfl
    simp [substringEval, hna]
  · intro s l
    have h1 : xIsInf (XValue.flt .inf) = true := rfl
    have h2 : xIsInf (XValue.flt .ninf) = true := rfl
    have h3 : xIsNan (XValue.flt .inf) = false := rfl
    have h4 : xIsNan (XValue.flt .ninf) = false := rfl
    constructor <;> simp [substringEval, h1, h2, h3, h4]
  · intro s st h1 h2
    have hna : xIsNan (XValue.flt .nan) = true := rfl
    simp [substringEval, h1, h2, hna]
  · intro s st len h1 h2 h3
    simp [substringEval, h1, h2, h3]
  · intro s st h1 h2
    have h3 : xIsNan (XValue.flt .inf) = false := rfl
    have h4 : xLeZero (XValue.flt .inf) = false := rfl
    have h5 : xIsInf (XValue.flt .inf) = true := rfl
    simp [substringEval, h1, h2, h3, h4, h5]
  · intro s q r hr
    have h1 : xIsNan (XValue.flt (.fin q)) = false := rfl
    have h2 : xIsInf (XValue.flt (.fin q)) = false := rfl
    have h3 : xIsNan (XValue.flt (.fin r)) = false := rfl
    have h4 : xIsInf (XValue.flt (.fin r)) = false := rfl
    have h5 : xLeZero (XValue.flt (.fin r)) = false := by simp [xLeZero, hr]
    have h6 : pyRoundX (XValue.flt (.fin q)) = halfEven q := rfl
    have h7 : pyRoundX (XValue.flt (.fin r)) = halfEven r := rfl
    simp [substringEval, h1, h2, h3, h4, h5, h6, h7]

/-- Witness for C6: the general finite-slice clause at the concrete call
`substring("12345", 1.5, 2.6)`. -/
theorem substring_semantics_witness :
    substringEval (some "12345") (.flt (.fin (3/2))) (some (.flt (.fin (13/5)))) =
      pySlice "12345" (halfEven (3/2) - 1) (halfEven (3/2) - 1 + halfEven (13/5)) :=
  substring_semantics.2.2.2.2.2.1 "12345" (3/2) (13/5) (by norm_num)

/-- A positive value quantized with ROUND_HALF_UP is `⌊q + 1/2⌋`. -/
theorem quantizeHalf_away_pos (q : ℚ) (hq : 0 < q) :
    quantizeHalf true q = Int.floor (q + 1/2) := by
  unfold quantizeHalf
  have hfl : (Int.floor q : ℚ) ≤ q := Int.floor_le q
  have hfu : q < Int.floor q + 1 := Int.lt_floor_add_one q
  split_ifs with h1 h2 h3
  · symm
    rw [Int.floor_eq_iff]
    constructor <;> linarith
  · symm
    rw [Int.floor_eq_iff]
    constructor <;> push_cast <;> linarith
  · symm
    rw [show q + 1/2 = ((Int.floor q + 1 : ℤ) : ℚ) by push_cast; linarith,
      Int.floor_intCast]
  · exact absurd (decide_eq_true hq).symm h3

/-- A non-positive value quantized with ROUND_HALF_DOWN is
`-⌈-q - 1/2⌉` (ties resolved towards zero). -/
theorem quantizeHalf_toward_nonpos (q : ℚ) (hq : q ≤ 0) :
    quantizeHalf false q = -Int.ceil (-q - 1/2) := by
  unfold quantizeHalf
  have hfl : (Int.floor q : ℚ) ≤ q := Int.floor_le q
  have hfu : q < Int.floor q + 1 := Int.lt_floor_add_one q
  split_ifs with h1 h2 h3
  · have hc : Int.ceil (-q - 1/2) = -Int.floor q := by
      rw [Int.ceil_eq_iff]
      push_cast
      constructor <;> linarith
    rw [hc]
    omega
  · have hc : Int.ceil (-q - 1/2) = -(Int.floor q + 1) := by
      rw [Int.ceil_eq_iff]
      push_cast
      constructor <;> linarith
    rw [hc]
    omega
  · have hc : Int.ceil (-q - 1/2) = -(Int.floor q + 1) := by
      rw [show -q - 1/2 = ((-(Int.floor q + 1) : ℤ) : ℚ) by push_cast; linarith,
        Int.ceil_intCast]
    rw [hc]
    omega
  · exact absurd (decide_eq_false (not_lt.mpr hq)).symm h3

/-- C7: the XPath `round` function rounds positive values half-up and
non-positive values half-down (towards zero at ties); in particular
`round(0.5)` is `1` and `round(-0.5)` is `0`. -/
theorem round_pos_half_up_nonpos_half_down :
    roundEvaluate (some (.flt (.fin (1/2)))) = .dec 1
  ∧ roundEvaluate (some (.flt (.fin (-(1/2))))) = .dec 0
  ∧ (∀ q : ℚ, 0 < q → roundEvaluate (some (.dec q)) =
      .dec ((Int.floor (q + 1/2) : ℤ) : ℚ))
  ∧ (∀ q : ℚ, q ≤ 0 → roundEvaluate (some (.dec q)) =
      .dec ((-Int.ceil (-q - 1/2) : ℤ) : ℚ)) := by
  refine ⟨by with_unfolding_all rfl, by with_unfolding_all rfl, ?_, ?_⟩
  · intro q hq
    simp only [roundEvaluate, numberValueX]
    rw [if_pos hq, quantizeHalf_away_pos q hq]
  · intro q hq
    simp only [roundEvaluate, numberValueX]
    rw [if_neg (not_lt.mpr hq), quantizeHalf_toward_nonpos q hq]

/-- Witness for C7: `round` at the positive value `3/2`. -/
theorem round_pos_half_up_nonpos_half_down_witness :
    roundEvaluate (some (.dec (3/2))) =
      .dec ((Int.floor ((3 : ℚ)/2 + 1/2) : ℤ) : ℚ) :=
  round_pos_half_up_nonpos_half_down.2.2.1 (3/2) (by norm_num)

end ElementPath

